import Mathlib

/-!
Shallow embedding of the delta-calibration module of the Smoothieware fork
(src/modules/tools/zprobe/ZProbe.cpp), together with proofs settling the
frozen claims about it.  C++ floats are modelled as rationals, C++ `int`
values as integers (C++ integer division, which truncates toward zero, is
`Int.tdiv`), and the probing hardware is modelled by explicit lists of
probe outcomes fed to the loop bodies.
-/

set_option maxHeartbeats 1000000

/-! ## getCoordinates (ZProbe.cpp lines 189-200) -/

/-- Result record for the six probe points computed by `getCoordinates`. -/
structure ProbeCoordinates where
  t1x : ℚ
  t1y : ℚ
  t2x : ℚ
  t2y : ℚ
  t3x : ℚ
  t3y : ℚ
  t4x : ℚ
  t4y : ℚ
  t5x : ℚ
  t5y : ℚ
  t6x : ℚ
  t6y : ℚ

/-- Embedding of `getCoordinates(float radius)`: px = 0.8660254*radius,
py = 0.5*radius, towers at (-px,-py), (px,-py), (0,radius) and the
opposite points at (px,py), (-px,py), (0,-radius). -/
def getCoordinates (radius : ℚ) : ProbeCoordinates :=
  let px : ℚ := (8660254 / 10000000) * radius
  let py : ℚ := (1 / 2) * radius
  { t1x := -px, t1y := -py
    t2x := px,  t2y := -py
    t3x := 0,   t3y := radius
    t4x := px,  t4y := py
    t5x := -px, t5y := py
    t6x := 0,   t6y := -radius }

/-! ## calibrate_delta_endstops trim computation (ZProbe.cpp lines 289-300) -/

/-- The empirically determined trim scale constant 1.1261F. -/
def trimscale : ℚ := 11261 / 10000

/-- Embedding of the trim update of `calibrate_delta_endstops`: given the
current trims and the three measured tower heights, each trim is increased
by (min - measured) * trimscale, where min is the smallest of the three
measurements (`std::minmax` first component). -/
def endstopTrims (trimx trimy trimz t1z t2z t3z : ℚ) : ℚ × ℚ × ℚ :=
  let mmfirst := min (min t1z t2z) t3z
  (trimx + (mmfirst - t1z) * trimscale,
   trimy + (mmfirst - t2z) * trimscale,
   trimz + (mmfirst - t3z) * trimscale)

/-! ## Theorems for claim C6 -/

/-- C6: for every radius r, the six probe points produced by
`getCoordinates r` form three antipodal pairs: t1/t4, t2/t5 and t3/t6 sum
to (0,0) componentwise. -/
theorem getCoordinates_antipodal (r : ℚ) :
    (getCoordinates r).t1x + (getCoordinates r).t4x = 0 ∧
    (getCoordinates r).t1y + (getCoordinates r).t4y = 0 ∧
    (getCoordinates r).t2x + (getCoordinates r).t5x = 0 ∧
    (getCoordinates r).t2y + (getCoordinates r).t5y = 0 ∧
    (getCoordinates r).t3x + (getCoordinates r).t6x = 0 ∧
    (getCoordinates r).t3y + (getCoordinates r).t6y = 0 := by
  simp [getCoordinates]

/-! ## Theorems for claim C3 -/

/-- C3 counterexample: with trims starting at zero and measured heights
(1, 2, 3) (spread 2, far above the default target 0.03), the X-axis trim
becomes (min - t1z) * trimscale = 0, which is not negative; hence the
claim that all three resulting trims are negative is false. -/
theorem endstop_trims_counterexample :
    (max (max (1 : ℚ) 2) 3 - min (min (1 : ℚ) 2) 3 > 3 / 100) ∧
    (endstopTrims 0 0 0 1 2 3).1 = 0 ∧
    ¬ ((endstopTrims 0 0 0 1 2 3).1 < 0) := by
  refine ⟨by norm_num, ?_, ?_⟩ <;> norm_num [endstopTrims, trimscale]

/-- C3 amended: starting from zero trims, each per-axis trim is set to
(min - measured) * 1.1261; all three resulting trims are nonpositive, and
the trim of an axis whose measurement attains the minimum is exactly 0
(that axis becomes the reference), so at least one trim is 0. -/
theorem endstop_trims_amended (t1z t2z t3z : ℚ) :
    (endstopTrims 0 0 0 t1z t2z t3z).1 = (min (min t1z t2z) t3z - t1z) * trimscale ∧
    (endstopTrims 0 0 0 t1z t2z t3z).2.1 = (min (min t1z t2z) t3z - t2z) * trimscale ∧
    (endstopTrims 0 0 0 t1z t2z t3z).2.2 = (min (min t1z t2z) t3z - t3z) * trimscale ∧
    (endstopTrims 0 0 0 t1z t2z t3z).1 ≤ 0 ∧
    (endstopTrims 0 0 0 t1z t2z t3z).2.1 ≤ 0 ∧
    (endstopTrims 0 0 0 t1z t2z t3z).2.2 ≤ 0 ∧
    ((endstopTrims 0 0 0 t1z t2z t3z).1 = 0 ∨
     (endstopTrims 0 0 0 t1z t2z t3z).2.1 = 0 ∨
     (endstopTrims 0 0 0 t1z t2z t3z).2.2 = 0) := by
  have hm1 : min (min t1z t2z) t3z ≤ t1z := le_trans (min_le_left _ _) (min_le_left _ _)
  have hm2 : min (min t1z t2z) t3z ≤ t2z := le_trans (min_le_left _ _) (min_le_right _ _)
  have hm3 : min (min t1z t2z) t3z ≤ t3z := min_le_right _ _
  have hts : (0 : ℚ) < trimscale := by norm_num [trimscale]
  refine ⟨by simp [endstopTrims], by simp [endstopTrims], by simp [endstopTrims], ?_, ?_, ?_, ?_⟩
  · simp only [endstopTrims]
    nlinarith
  · simp only [endstopTrims]
    nlinarith
  · simp only [endstopTrims]
    nlinarith
  · have hmin : min (min t1z t2z) t3z = t1z ∨ min (min t1z t2z) t3z = t2z ∨
        min (min t1z t2z) t3z = t3z := by
      rcases min_cases (min t1z t2z) t3z with ⟨h, _⟩ | ⟨h, _⟩
      · rcases min_cases t1z t2z with ⟨h2, _⟩ | ⟨h2, _⟩
        · exact Or.inl (h.trans h2)
        · exact Or.inr (Or.inl (h.trans h2))
      · exact Or.inr (Or.inr h)
    rcases hmin with h | h | h
    · left
      simp [endstopTrims, h]
    · right; left
      simp [endstopTrims, h]
    · right; right
      simp [endstopTrims, h]

/-! ## Tower-blame selection (ZProbe.cpp lines 620-646 and 1119-1136) -/

/-- Embedding of `minmax({alpha,beta,gamma},abs_compare).second`: the last
element of maximal absolute value, as returned by std::minmax with the
comparator `abs(a) < abs(b)`. -/
def lastAbsMax (alpha beta gamma : ℤ) : ℤ :=
  let m1 := if |alpha| ≤ |beta| then beta else alpha
  if |m1| ≤ |gamma| then gamma else m1

/-- Embedding of the sequential assignments
`if(alpha==mm1.second) blame_tower=1; if(beta==mm1.second) blame_tower=2;
if(gamma==mm1.second) blame_tower=3;` starting from blame_tower = -1:
the later assignments override the earlier ones. -/
def argBlame (alpha beta gamma : ℤ) : ℤ :=
  let m := lastAbsMax alpha beta gamma
  if gamma = m then 3 else if beta = m then 2 else if alpha = m then 1 else -1

/-- Embedding of the blame-override table of
`calibrate_delta_tower_geometry` (lines 637-643): six sequential ifs over
the three bad flags, starting from the argmax-based value b0, followed by
the all-good row which assigns 4 (the termination signal, followed by
`break`). -/
def geometryBlameTable (aB bB gB : Bool) (b0 : ℤ) : ℤ :=
  let r1 := if !aB && bB && gB then 1 else b0
  let r2 := if aB && !bB && gB then 2 else r1
  let r3 := if aB && bB && !gB then 3 else r2
  let r4 := if aB && !bB && !gB then 1 else r3
  let r5 := if !aB && bB && !gB then 2 else r4
  let r6 := if !aB && !bB && gB then 3 else r5
  if !aB && !bB && !gB then 4 else r6

/-- Embedding of the blame selection of `calibrate_delta_tower_geometry`:
a tower is flagged bad unless `abs(value) / Z_STEPS_PER_MM < target`
(lines 621-631; abs is taken on the int before the float division), then
the override table is applied on top of the argmax-based choice. -/
def blameGeometry (alpha beta gamma : ℤ) (zspm target : ℚ) : ℤ :=
  geometryBlameTable
    (! decide (((|alpha| : ℤ) : ℚ) / zspm < target))
    (! decide (((|beta| : ℤ) : ℚ) / zspm < target))
    (! decide (((|gamma| : ℤ) : ℚ) / zspm < target))
    (argBlame alpha beta gamma)

/-- Embedding of the blame-override table of
`calibrate_delta_tower_position` (lines 1130-1135): note that the fifth
and sixth rows repeat the conditions of the third and second rows with a
different blame value, and that there is no all-good row. -/
def positionBlameTable (aB bB gB : Bool) (b0 : ℤ) : ℤ :=
  let r1 := if !aB && bB && gB then 1 else b0
  let r2 := if aB && !bB && gB then 2 else r1
  let r3 := if aB && bB && !gB then 3 else r2
  let r4 := if aB && !bB && !gB then 1 else r3
  let r5 := if aB && bB && !gB then 2 else r4
  let r6 := if aB && !bB && gB then 3 else r5
  r6

/-- Embedding of the blame selection of `calibrate_delta_tower_position`:
a tower is flagged bad unless `abs(value / Z_STEPS_PER_MM) <= target`
(lines 1121-1123), then the override table is applied. -/
def blamePosition (alpha beta gamma : ℤ) (zspm target : ℚ) : ℤ :=
  positionBlameTable
    (! decide (|(alpha : ℚ) / zspm| ≤ target))
    (! decide (|(beta : ℚ) / zspm| ≤ target))
    (! decide (|(gamma : ℚ) / zspm| ≤ target))
    (argBlame alpha beta gamma)

/-- Restatement of the geometry blame table from the amended claim: count
the bad towers; none bad gives the termination value 4, exactly one bad
blames that tower, exactly two bad blames the single good tower, and all
three bad falls back to the tower of largest absolute difference. -/
def geometryBlameSpecTable (aB bB gB : Bool) (b0 : ℤ) : ℤ :=
  let nbad : ℕ := (if aB then 1 else 0) + (if bB then 1 else 0) + (if gB then 1 else 0)
  if nbad = 0 then 4
  else if nbad = 1 then (if aB then 1 else if bB then 2 else 3)
  else if nbad = 2 then (if !aB then 1 else if !bB then 2 else 3)
  else b0

/-- Geometry blame selection per the amended claim, with bad meaning that
the absolute difference in mm reaches the target (is not below it). -/
def blameGeometrySpec (alpha beta gamma : ℤ) (zspm target : ℚ) : ℤ :=
  geometryBlameSpecTable
    (decide (target ≤ ((|alpha| : ℤ) : ℚ) / zspm))
    (decide (target ≤ ((|beta| : ℤ) : ℚ) / zspm))
    (decide (target ≤ ((|gamma| : ℤ) : ℚ) / zspm))
    (argBlame alpha beta gamma)

/-- Restatement of the position blame table from the amended claim: alpha
alone bad blames 1; among the two-bad cases, alpha-and-beta blames 3 then
is overridden to 2, alpha-and-gamma blames 2 then is overridden to 3, and
beta-and-gamma blames 1; every other combination (none bad, beta alone,
gamma alone, all three bad) keeps the argmax-based choice, and no value
terminates the loop. -/
def positionBlameSpecTable (aB bB gB : Bool) (b0 : ℤ) : ℤ :=
  if aB && !bB && !gB then 1
  else if aB && bB && !gB then 2
  else if aB && !bB && gB then 3
  else if !aB && bB && gB then 1
  else b0

/-- Position blame selection per the amended claim, with bad meaning that
the absolute difference in mm strictly exceeds the target. -/
def blamePositionSpec (alpha beta gamma : ℤ) (zspm target : ℚ) : ℤ :=
  positionBlameSpecTable
    (decide (target < |(alpha : ℚ) / zspm|))
    (decide (target < |(beta : ℚ) / zspm|))
    (decide (target < |(gamma : ℚ) / zspm|))
    (argBlame alpha beta gamma)

/-! ## Theorems for claim C1 -/

/-- C1 counterexample: with alpha = 0, beta = 10, gamma = 5 steps at 100
steps/mm and target 0.03mm, beta and gamma are bad (0.1mm and 0.05mm both
exceed the target) while alpha is good, and beta has the largest absolute
difference; the claim says the blamed tower is then tower 2, but
`calibrate_delta_tower_geometry` blames tower 1, the good one. -/
theorem blame_tower_selection_counterexample :
    ((3 : ℚ) / 100 < ((|(10 : ℤ)| : ℤ) : ℚ) / 100) ∧
    ((3 : ℚ) / 100 < ((|(5 : ℤ)| : ℤ) : ℚ) / 100) ∧
    (((|(0 : ℤ)| : ℤ) : ℚ) / 100 < 3 / 100) ∧
    |(10 : ℤ)| > |(5 : ℤ)| ∧ |(10 : ℤ)| > |(0 : ℤ)| ∧
    blameGeometry 0 10 5 100 (3 / 100) = 1 ∧
    blameGeometry 0 10 5 100 (3 / 100) ≠ 2 := by
  norm_num [blameGeometry, geometryBlameTable, argBlame, lastAbsMax]

/-- C1 amended: in `calibrate_delta_tower_geometry` a tower is bad exactly
when its absolute tower-minus-antipode difference in mm is not below the
target (greater than or equal), and the blamed tower is: the termination
value 4 when none is bad, the single bad tower when exactly one is bad,
the single good tower when exactly two are bad, and the tower of largest
absolute difference when all three are bad.  In
`calibrate_delta_tower_position` a tower is bad exactly when its absolute
difference strictly exceeds the target; alpha alone bad blames tower 1,
alpha-and-beta bad blames tower 2, alpha-and-gamma bad blames tower 3,
beta-and-gamma bad blames tower 1 (the good one), and every other
combination keeps the tower of largest absolute difference; no
combination terminates the loop there. -/
theorem blame_tower_selection_amended (alpha beta gamma : ℤ) (zspm target : ℚ) :
    blameGeometry alpha beta gamma zspm target =
      blameGeometrySpec alpha beta gamma zspm target ∧
    blamePosition alpha beta gamma zspm target =
      blamePositionSpec alpha beta gamma zspm target := by
  have hg : ∀ a b g : Bool, ∀ b0 : ℤ,
      geometryBlameTable a b g b0 = geometryBlameSpecTable a b g b0 := by
    intro a b g b0
    cases a <;> cases b <;> cases g <;> rfl
  have hp : ∀ a b g : Bool, ∀ b0 : ℤ,
      positionBlameTable a b g b0 = positionBlameSpecTable a b g b0 := by
    intro a b g b0
    cases a <;> cases b <;> cases g <;> rfl
  have hflip : ∀ x t : ℚ, (! decide (x < t)) = decide (t ≤ x) := by
    intro x t
    rw [← decide_not]
    exact decide_eq_decide.mpr not_lt
  have hflip2 : ∀ x t : ℚ, (! decide (x ≤ t)) = decide (t < x) := by
    intro x t
    rw [← decide_not]
    exact decide_eq_decide.mpr not_le
  constructor
  · rw [blameGeometry, blameGeometrySpec, hflip, hflip, hflip]
    exact hg _ _ _ _
  · rw [blamePosition, blamePositionSpec, hflip2, hflip2, hflip2]
    exact hp _ _ _ _

/-! ## fix_delta_tower_radius convergence loop (ZProbe.cpp lines 657-862) -/

/-- Embedding of the overshoot-detection block of `fix_delta_tower_radius`
(lines 797-808): two sequential ifs; when the anti-tower height is below
the tower height and the adjustment is negative, or above it while the
adjustment is positive, the adjustment is replaced by -adjustment/4. -/
def fixRadiusAdjust (zspm : ℚ) (tower anti : ℤ) (adjustment : ℚ) : ℚ :=
  let tower_z : ℚ := (tower : ℚ) / zspm
  let a1 := if (anti : ℚ) / zspm < tower_z ∧ adjustment < 0 then -adjustment / 4 else adjustment
  if (anti : ℚ) / zspm > tower_z ∧ a1 > 0 then -a1 / 4 else a1

/-- Embedding of the completion test of `fix_delta_tower_radius`
(line 814): the anti-tower height lies strictly between tower_z - target
and tower_z + target. -/
def fixRadiusDone (zspm target : ℚ) (tower anti : ℤ) : Bool :=
  decide ((anti : ℚ) / zspm > (tower : ℚ) / zspm - target) &&
    decide ((anti : ℚ) / zspm < (tower : ℚ) / zspm + target)

/-- Outcome of the per-tower radius search loop. -/
inductive RadiusResult where
  | finished (radius : ℚ) : RadiusResult
  | aborted : RadiusResult
  | exhausted : RadiusResult
  deriving DecidableEq

/-- Embedding of the do-while loop of `fix_delta_tower_radius`
(lines 725-824).  Each iteration first applies the current adjustment to
the blamed tower radial option, then probes the tower and its antipode
(the next pair in the list), runs overshoot detection, checks the
completion window, and finally aborts (returns false) when
the cumulative change from rinit exceeds 10.  The probe results for each
iteration are supplied as a list; running out of list entries models an
unobserved continuation. -/
def fixRadiusLoop (zspm target rinit : ℚ) :
    List (ℤ × ℤ) → ℚ → ℚ → RadiusResult
  | [], _, _ => RadiusResult.exhausted
  | (tower, anti) :: rest, tower_radius, adjustment =>
    if |rinit - (tower_radius + adjustment)| > 10 then RadiusResult.aborted
    else if fixRadiusDone zspm target tower anti then
      RadiusResult.finished (tower_radius + adjustment)
    else
      fixRadiusLoop zspm target rinit rest (tower_radius + adjustment)
        (fixRadiusAdjust zspm tower anti adjustment)

/-! ## Theorems for claim C2 -/

/-- C2 counterexample: in `fix_delta_tower_radius`, with 100 steps/mm:
(i) tower = 100, anti = 0 steps and adjustment 1/2: diff = anti - tower is
negative while the adjustment is positive (opposite signs, the overshoot
of the claim), yet the adjustment is left unchanged at 1/2; (ii) tower =
0, anti = 100 and adjustment 1/2: diff is positive, same sign as the
adjustment, yet the code treats this as overshoot and produces -1/8,
which is the quartered negation, not the halved negation -1/4; (iii) with
target 0.03, tower = 0 and anti = 3 steps, |diff| = target, so the claim
says the loop stops, but the completion test is strict and fails. -/
theorem fix_radius_overshoot_counterexample :
    ((0 : ℚ) / 100 - (100 : ℚ) / 100 < 0) ∧
    fixRadiusAdjust 100 100 0 (1 / 2) = 1 / 2 ∧
    ((0 : ℚ) < (100 : ℚ) / 100 - (0 : ℚ) / 100) ∧
    fixRadiusAdjust 100 0 100 (1 / 2) = -(1 / 8) ∧
    ((-(1 / 8) : ℚ) ≠ -(1 / 4)) ∧
    (|(3 : ℚ) / 100 - (0 : ℚ) / 100| ≤ 3 / 100) ∧
    fixRadiusDone 100 (3 / 100) 0 3 = false := by
  norm_num [fixRadiusAdjust, fixRadiusDone, abs_le]

/-- C2 amended: on every iteration where diff = anti_tower - tower has the
SAME sign as the current adjustment (anti below tower with a negative
adjustment, or anti above tower with a positive adjustment), the
adjustment step is negated and divided by 4 before the next iteration; in
all other cases it is unchanged.  The completion test of the loop holds
exactly when |diff| < target strictly. -/
theorem fix_radius_overshoot_amended (zspm target : ℚ) (tower anti : ℤ) (adj : ℚ) :
    fixRadiusAdjust zspm tower anti adj =
      (if ((anti : ℚ) / zspm < (tower : ℚ) / zspm ∧ adj < 0) ∨
          ((anti : ℚ) / zspm > (tower : ℚ) / zspm ∧ adj > 0)
       then -adj / 4 else adj) ∧
    fixRadiusDone zspm target tower anti =
      decide (|(anti : ℚ) / zspm - (tower : ℚ) / zspm| < target) := by
  constructor
  · simp only [fixRadiusAdjust]
    by_cases h1 : (anti : ℚ) / zspm < (tower : ℚ) / zspm ∧ adj < 0
    · rw [if_pos h1]
      have hno : ¬ ((anti : ℚ) / zspm > (tower : ℚ) / zspm ∧ -adj / 4 > 0) := by
        rintro ⟨hgt, _⟩
        exact absurd h1.1 (not_lt.mpr hgt.le)
      rw [if_neg hno, if_pos (Or.inl h1)]
    · rw [if_neg h1]
      by_cases h2 : (anti : ℚ) / zspm > (tower : ℚ) / zspm ∧ adj > 0
      · rw [if_pos h2, if_pos (Or.inr h2)]
      · rw [if_neg h2, if_neg ?_]
        rintro (h | h)
        · exact h1 h
        · exact h2 h
  · rw [fixRadiusDone, ← Bool.decide_and]
    refine decide_eq_decide.mpr ?_
    rw [abs_sub_lt_iff]
    constructor
    · rintro ⟨h1, h2⟩
      constructor <;> linarith
    · rintro ⟨h1, h2⟩
      constructor <;> linarith

/-! ## Theorems for claim C7 -/

/-- C7: whenever the cumulative change of the blamed-tower radial option
from its initial value exceeds 10 units, the iteration of
`fix_delta_tower_radius` aborts with failure; consequently any
successfully finished search ends with a cumulative change of at most
10 units — the loop never continues adjusting past that bound. -/
theorem fix_radius_runaway_guard :
    (∀ zspm target rinit : ℚ, ∀ tower anti : ℤ, ∀ rest : List (ℤ × ℤ), ∀ r adj : ℚ,
      |rinit - (r + adj)| > 10 →
      fixRadiusLoop zspm target rinit ((tower, anti) :: rest) r adj = RadiusResult.aborted) ∧
    (∀ zspm target rinit : ℚ, ∀ probes : List (ℤ × ℤ), ∀ r adj rfin : ℚ,
      fixRadiusLoop zspm target rinit probes r adj = RadiusResult.finished rfin →
      |rinit - rfin| ≤ 10) := by
  constructor
  · intro zspm target rinit tower anti rest r adj h
    simp [fixRadiusLoop, if_pos h]
  · intro zspm target rinit probes
    induction probes with
    | nil =>
      intro r adj rfin h
      simp [fixRadiusLoop] at h
    | cons p rest ih =>
      intro r adj rfin h
      obtain ⟨tower, anti⟩ := p
      rw [fixRadiusLoop] at h
      by_cases h1 : |rinit - (r + adj)| > 10
      · rw [if_pos h1] at h
        exact RadiusResult.noConfusion h
      · rw [if_neg h1] at h
        by_cases h2 : fixRadiusDone zspm target tower anti = true
        · rw [if_pos h2] at h
          have hr : r + adj = rfin := RadiusResult.finished.inj h
          rw [← hr]
          exact not_lt.mp h1
        · rw [if_neg h2] at h
          exact ih _ _ _ h

/-- C7 witness: with rinit = 0, a pending adjustment of 20 makes the loop
abort immediately, and a converging run ends within the 10-unit bound. -/
theorem fix_radius_runaway_guard_witness :
    (|(0 : ℚ) - ((0 : ℚ) + 20)| > 10) ∧
    fixRadiusLoop 1 1 0 [((0 : ℤ), (0 : ℤ))] 0 20 = RadiusResult.aborted ∧
    fixRadiusLoop 1 1 0 [((0 : ℤ), (0 : ℤ))] 0 0 = RadiusResult.finished 0 ∧
    |(0 : ℚ) - (0 : ℚ)| ≤ 10 :=
  ⟨by norm_num,
   fix_radius_runaway_guard.1 1 1 0 0 0 [] 0 20 (by norm_num),
   by norm_num [fixRadiusLoop, fixRadiusDone],
   fix_radius_runaway_guard.2 1 1 0 [((0 : ℤ), (0 : ℤ))] 0 0 0
     (by norm_num [fixRadiusLoop, fixRadiusDone])⟩

/-! ## acceleration_tick (ZProbe.cpp lines 1698-1722) -/

/-- Per-axis stepper state read and written by the acceleration tick. -/
structure AxisState where
  moving : Bool
  rate : ℕ

/-- Embedding of `target_rate = int(floor(this->current_feedrate))`. -/
def targetRate (current_feedrate : ℚ) : ℕ := (Int.floor current_feedrate).toNat

/-- Embedding of
`rate_increase = int(floor((acceleration / ticks_per_second) * steps_per_mm))`. -/
def rateIncrease (acceleration ticks_per_second steps_per_mm : ℚ) : ℕ :=
  (Int.floor (acceleration / ticks_per_second * steps_per_mm)).toNat

/-- Embedding of the per-axis rate update of `acceleration_tick`
(lines 1709-1718): raise a rate below the target by at most rate_increase
capped at the target, clamp a rate above the target directly down to the
target, then write back the maximum of the result and the configured
minimum step rate. -/
def acceleration_tick_rate (current target rate_increase minimum : ℕ) : ℕ :=
  let c1 := if current < target then min target (current + rate_increase) else current
  let c2 := if c1 > target then target else c1
  max c2 minimum

/-- Embedding of one `acceleration_tick` call over the three axes: a no-op
unless running, and a per-axis no-op unless that axis is moving. -/
def acceleration_tick (running : Bool) (current_feedrate acceleration ticks_per_second : ℚ)
    (steps_per_mm : Fin 3 → ℚ) (minimum : ℕ) (axes : Fin 3 → AxisState) : Fin 3 → AxisState :=
  fun c =>
    if running = false then axes c
    else if (axes c).moving = false then axes c
    else
      { axes c with
        rate := acceleration_tick_rate (axes c).rate (targetRate current_feedrate)
          (rateIncrease acceleration ticks_per_second (steps_per_mm c)) minimum }

/-! ## Theorems for claim C8 -/

/-- C8 counterexample: with current rate 20, feedrate 5 (target rate 5),
acceleration 2 at 1 tick/s and 1 step/mm (rate_increase 2) and minimum
step rate 10, the written-back rate is 10: it exceeds the target rate 5,
and the change |20 - 10| = 10 exceeds rate_increase = 2, refuting both
clamping parts of the claim. -/
theorem acceleration_tick_counterexample :
    targetRate 5 = 5 ∧
    rateIncrease 2 1 1 = 2 ∧
    acceleration_tick_rate 20 5 2 10 = 10 ∧
    ¬ (acceleration_tick_rate 20 5 2 10 ≤ 5) ∧
    2 < 20 - acceleration_tick_rate 20 5 2 10 := by
  refine ⟨?_, ?_, ?_, ?_, ?_⟩
  · norm_num [targetRate]
    rfl
  · norm_num [rateIncrease]
    rfl
  all_goals decide

/-- C8 amended: for a moving axis the written-back rate equals
max (if current < target then min target (current + rate_increase) else
target) minimum: an increase is capped both by rate_increase and by the
target, a rate above the target drops directly to the target (a decrease
not bounded by rate_increase), and the result is then raised to the
configured minimum, so the written rate never falls below the minimum,
never exceeds max target minimum, but can exceed the target itself
whenever the minimum does.  The tick leaves every axis unchanged when the
probe is not running. -/
theorem acceleration_tick_amended (current target rate_increase minimum : ℕ)
    (cf acc tps : ℚ) (spm : Fin 3 → ℚ) (axes : Fin 3 → AxisState) (c : Fin 3) :
    acceleration_tick_rate current target rate_increase minimum =
      max (if current < target then min target (current + rate_increase) else target) minimum ∧
    minimum ≤ acceleration_tick_rate current target rate_increase minimum ∧
    acceleration_tick_rate current target rate_increase minimum ≤ max target minimum ∧
    acceleration_tick false cf acc tps spm minimum axes c = axes c := by
  refine ⟨?_, ?_, ?_, ?_⟩
  · simp only [acceleration_tick_rate]
    split_ifs <;> omega
  · simp only [acceleration_tick_rate]
    split_ifs <;> omega
  · simp only [acceleration_tick_rate]
    split_ifs <;> omega
  · simp [acceleration_tick]

/-! ## wait_for_probe and run_probe (ZProbe.cpp lines 96-159) -/

/-- One scheduler-tick poll of the hardware as seen by `wait_for_probe`:
the per-axis moving flags, the probe-pin reading, and the per-axis step
counts that `get_stepped()` would report at that instant. -/
structure ProbePoll where
  moving : Fin 3 → Bool
  pin : Bool
  stepped : Fin 3 → ℤ

/-- Embedding of `ZProbe::wait_for_probe(int steps[3])`.  The poll
sequence is supplied as a list; the result carries the returned Bool, the
index of the poll at which the function returned, and the final contents
of the `steps` array (whose initial, uninitialized contents are the third
argument).  A debounce counter below debounce_count is incremented on an
active poll; on reaching it the steppers are stopped and `steps[i]` is
written with `get_stepped()` for moving axes and 0 otherwise; an inactive
poll resets the counter to zero; if no stepper is moving the function
returns false without touching `steps`.  `none` models a poll sequence
that ends before the loop returns. -/
def wait_for_probe (debounce_count : ℕ) :
    List ProbePoll → ℕ → (Fin 3 → ℤ) → Option (Bool × ℕ × (Fin 3 → ℤ))
  | [], _, _ => none
  | p :: rest, debounce, steps =>
    if p.moving 0 = false ∧ p.moving 1 = false ∧ p.moving 2 = false then
      some (false, 0, steps)
    else if p.pin = true then
      if debounce < debounce_count then
        (wait_for_probe debounce_count rest (debounce + 1) steps).map
          (fun r => (r.1, r.2.1 + 1, r.2.2))
      else
        some (true, 0, fun i => if p.moving i = true then p.stepped i else 0)
    else
      (wait_for_probe debounce_count rest 0 steps).map
        (fun r => (r.1, r.2.1 + 1, r.2.2))

/-- Embedding of `ZProbe::run_probe(int&, bool)`: it declares a local
uninitialized `int s[3]` (modelled by the arbitrary initial array), calls
`wait_for_probe(s)` and reports `s[Z_AXIS]` together with the Bool result,
whether or not the probe triggered. -/
def run_probe (debounce_count : ℕ) (polls : List ProbePoll) (s : Fin 3 → ℤ) :
    Option (Bool × ℤ) :=
  (wait_for_probe debounce_count polls 0 s).map (fun r => (r.1, r.2.2 2))

theorem waitAcceptAux (dc : ℕ) (polls : List ProbePoll) :
    ∀ d k : ℕ, ∀ arr0 out : Fin 3 → ℤ,
      wait_for_probe dc polls d arr0 = some (true, k, out) →
      dc ≤ d + k ∧
        ∀ j, j ≤ k → ∀ p, polls.get? j = some p →
          (p.moving 0 = true ∨ p.moving 1 = true ∨ p.moving 2 = true) ∧
          (k ≤ j + dc → p.pin = true) := by
  have hmv : ∀ a b c : Bool, ¬ (a = false ∧ b = false ∧ c = false) →
      (a = true ∨ b = true ∨ c = true) := by decide
  induction polls with
  | nil =>
    intro d k arr0 out h
    simp [wait_for_probe] at h
  | cons p rest ih =>
    intro d k arr0 out h
    rw [wait_for_probe] at h
    by_cases hstop : p.moving 0 = false ∧ p.moving 1 = false ∧ p.moving 2 = false
    · rw [if_pos hstop] at h
      simp at h
    · rw [if_neg hstop] at h
      have hmove := hmv _ _ _ hstop
      by_cases hpin : p.pin = true
      · rw [if_pos hpin] at h
        by_cases hdc : d < dc
        · rw [if_pos hdc] at h
          rcases Option.map_eq_some'.mp h with ⟨r, hr, hf⟩
          obtain ⟨r1, r2, r3⟩ := r
          simp only [Prod.mk.injEq] at hf
          obtain ⟨hb, hk, ho⟩ := hf
          subst hb ho
          obtain ⟨hc, hj⟩ := ih _ _ _ _ hr
          constructor
          · omega
          · intro j hjk q hq
            cases j with
            | zero =>
              simp only [List.get?] at hq
              obtain rfl : p = q := by injection hq
              exact ⟨hmove, fun _ => hpin⟩
            | succ j0 =>
              simp only [List.get?] at hq
              obtain ⟨mv, pinf⟩ := hj j0 (by omega) q hq
              exact ⟨mv, fun hcond => pinf (by omega)⟩
        · rw [if_neg hdc] at h
          simp only [Option.some.injEq, Prod.mk.injEq] at h
          obtain ⟨-, hk, hout⟩ := h
          constructor
          · omega
          · intro j hjk q hq
            have hj0 : j = 0 := by omega
            subst hj0
            simp only [List.get?] at hq
            obtain rfl : p = q := by injection hq
            exact ⟨hmove, fun _ => hpin⟩
      · rw [if_neg hpin] at h
        rcases Option.map_eq_some'.mp h with ⟨r, hr, hf⟩
        obtain ⟨r1, r2, r3⟩ := r
        simp only [Prod.mk.injEq] at hf
        obtain ⟨hb, hk, ho⟩ := hf
        subst hb ho
        obtain ⟨hc, hj⟩ := ih _ _ _ _ hr
        constructor
        · omega
        · intro j hjk q hq
          cases j with
          | zero =>
            simp only [List.get?] at hq
            obtain rfl : p = q := by injection hq
            refine ⟨hmove, fun hcond => absurd hcond (by omega)⟩
          | succ j0 =>
            simp only [List.get?] at hq
            obtain ⟨mv, pinf⟩ := hj j0 (by omega) q hq
            exact ⟨mv, fun hcond => pinf (by omega)⟩

theorem waitFalseAux (dc : ℕ) (polls : List ProbePoll) :
    ∀ d k : ℕ, ∀ steps arr : Fin 3 → ℤ,
      wait_for_probe dc polls d steps = some (false, k, arr) → arr = steps := by
  induction polls with
  | nil =>
    intro d k steps arr h
    simp [wait_for_probe] at h
  | cons p rest ih =>
    intro d k steps arr h
    rw [wait_for_probe] at h
    by_cases hstop : p.moving 0 = false ∧ p.moving 1 = false ∧ p.moving 2 = false
    · rw [if_pos hstop] at h
      simp only [Option.some.injEq, Prod.mk.injEq] at h
      exact h.2.2.symm
    · rw [if_neg hstop] at h
      by_cases hpin : p.pin = true
      · rw [if_pos hpin] at h
        by_cases hdc : d < dc
        · rw [if_pos hdc] at h
          rcases Option.map_eq_some'.mp h with ⟨r, hr, hf⟩
          obtain ⟨r1, r2, r3⟩ := r
          simp only [Prod.mk.injEq] at hf
          obtain ⟨hb, -, ho⟩ := hf
          subst hb
          subst ho
          exact ih _ _ _ _ hr
        · rw [if_neg hdc] at h
          simp at h
      · rw [if_neg hpin] at h
        rcases Option.map_eq_some'.mp h with ⟨r, hr, hf⟩
        obtain ⟨r1, r2, r3⟩ := r
        simp only [Prod.mk.injEq] at hf
        obtain ⟨hb, -, ho⟩ := hf
        subst hb
        subst ho
        exact ih _ _ _ _ hr

theorem waitTrueAux (dc : ℕ) (polls : List ProbePoll) :
    ∀ d k : ℕ, ∀ steps arr : Fin 3 → ℤ,
      wait_for_probe dc polls d steps = some (true, k, arr) →
      k < polls.length ∧
        ∀ p, polls.get? k = some p →
          arr = fun i => if p.moving i = true then p.stepped i else 0 := by
  induction polls with
  | nil =>
    intro d k steps arr h
    simp [wait_for_probe] at h
  | cons p rest ih =>
    intro d k steps arr h
    rw [wait_for_probe] at h
    by_cases hstop : p.moving 0 = false ∧ p.moving 1 = false ∧ p.moving 2 = false
    · rw [if_pos hstop] at h
      simp at h
    · rw [if_neg hstop] at h
      by_cases hpin : p.pin = true
      · rw [if_pos hpin] at h
        by_cases hdc : d < dc
        · rw [if_pos hdc] at h
          rcases Option.map_eq_some'.mp h with ⟨r, hr, hf⟩
          obtain ⟨r1, r2, r3⟩ := r
          simp only [Prod.mk.injEq] at hf
          obtain ⟨hb, hk, ho⟩ := hf
          subst hb
          subst ho
          obtain ⟨hlen, harr⟩ := ih _ _ _ _ hr
          constructor
          · simp only [List.length_cons]
            omega
          · intro q hq
            have hk2 : k = r2 + 1 := hk.symm
            subst hk2
            simp only [List.get?] at hq
            exact harr q hq
        · rw [if_neg hdc] at h
          simp only [Option.some.injEq, Prod.mk.injEq] at h
          obtain ⟨-, hk, harr⟩ := h
          have hk2 : k = 0 := hk.symm
          subst hk2
          constructor
          · simp
          · intro q hq
            simp only [List.get?] at hq
            obtain rfl : p = q := by injection hq
            exact harr.symm
      · rw [if_neg hpin] at h
        rcases Option.map_eq_some'.mp h with ⟨r, hr, hf⟩
        obtain ⟨r1, r2, r3⟩ := r
        simp only [Prod.mk.injEq] at hf
        obtain ⟨hb, hk, ho⟩ := hf
        subst hb
        subst ho
        obtain ⟨hlen, harr⟩ := ih _ _ _ _ hr
        constructor
        · simp only [List.length_cons]
          omega
        · intro q hq
          have hk2 : k = r2 + 1 := hk.symm
          subst hk2
          simp only [List.get?] at hq
          exact harr q hq

/-- A poll on which all axes are moving and the probe pin reads active,
with 5 pending steps on each axis. -/
def pollA : ProbePoll := ⟨fun _ => true, true, fun _ => 5⟩

/-- A poll on which no axis is moving (all moves finished, no touch). -/
def pollStop : ProbePoll := ⟨fun _ => false, false, fun _ => 0⟩

/-! ## Theorems for claim C5 -/

/-- C5: when `wait_for_probe` accepts a touch at poll k (starting from
debounce counter 0), at least debounce_count polls precede it, every poll
up to k found some stepper moving, and the probe input read active on the
accepting poll and on the debounce_count consecutive polls before it
(every j with k ≤ j + debounce_count); moreover a poll on which the input
reads inactive (while motion continues) restarts the scan with the
debounce counter reset to zero. -/
theorem wait_for_probe_debounce_spec :
    (∀ dc : ℕ, ∀ polls : List ProbePoll, ∀ k : ℕ, ∀ arr0 out : Fin 3 → ℤ,
      wait_for_probe dc polls 0 arr0 = some (true, k, out) →
      dc ≤ k ∧
        ∀ j, j ≤ k → ∀ p, polls.get? j = some p →
          (p.moving 0 = true ∨ p.moving 1 = true ∨ p.moving 2 = true) ∧
          (k ≤ j + dc → p.pin = true)) ∧
    (∀ dc : ℕ, ∀ p : ProbePoll, ∀ rest : List ProbePoll, ∀ d : ℕ, ∀ steps : Fin 3 → ℤ,
      (p.moving 0 = true ∨ p.moving 1 = true ∨ p.moving 2 = true) → p.pin = false →
      wait_for_probe dc (p :: rest) d steps =
        (wait_for_probe dc rest 0 steps).map (fun r => (r.1, r.2.1 + 1, r.2.2))) := by
  constructor
  · intro dc polls k arr0 out h
    obtain ⟨hc, hj⟩ := waitAcceptAux dc polls 0 k arr0 out h
    exact ⟨by omega, hj⟩
  · intro dc p rest d steps hmove hpin
    have h1x : ¬ (p.moving 0 = false ∧ p.moving 1 = false ∧ p.moving 2 = false) := by
      rintro ⟨h0, h1, h2⟩
      rcases hmove with h | h | h <;> simp_all
    have h2x : ¬ (p.pin = true) := by simp [hpin]
    rw [wait_for_probe, if_neg h1x, if_neg h2x]

/-- C5 witness: with debounce_count 1 and two consecutive active polls,
the touch is accepted at poll index 1, which indeed has the pin active
and satisfies 1 ≤ k. -/
theorem wait_for_probe_debounce_spec_witness :
    wait_for_probe 1 [pollA, pollA] 0 (fun _ => 9) = some (true, 1, fun _ => (5 : ℤ)) ∧
    1 ≤ 1 ∧ pollA.pin = true :=
  ⟨rfl,
   (wait_for_probe_debounce_spec.1 1 [pollA, pollA] 1 (fun _ => 9) (fun _ => 5) rfl).1,
   ((wait_for_probe_debounce_spec.1 1 [pollA, pollA] 1 (fun _ => 9) (fun _ => 5) rfl).2
      1 le_rfl pollA rfl).2 (by omega)⟩

/-! ## Theorems for claim C10 -/

/-- C10: `wait_for_probe` leaves the steps array untouched on the
untriggered (false) return; on the triggered (true) return it writes it
from the accepting poll, zeroing entries of non-moving axes; and when
`run_probe` returns false, the step count it reports is just the
uninitialized local value, not a value produced by the probe. -/
theorem wait_for_probe_steps_frame :
    (∀ dc : ℕ, ∀ polls : List ProbePoll, ∀ d k : ℕ, ∀ steps arr : Fin 3 → ℤ,
      wait_for_probe dc polls d steps = some (false, k, arr) → arr = steps) ∧
    (∀ dc : ℕ, ∀ polls : List ProbePoll, ∀ d k : ℕ, ∀ steps arr : Fin 3 → ℤ,
      wait_for_probe dc polls d steps = some (true, k, arr) →
      k < polls.length ∧
        ∀ p, polls.get? k = some p →
          arr = fun i => if p.moving i = true then p.stepped i else 0) ∧
    (∀ dc : ℕ, ∀ polls : List ProbePoll, ∀ sInit : Fin 3 → ℤ, ∀ z : ℤ,
      run_probe dc polls sInit = some (false, z) → z = sInit 2) := by
  refine ⟨waitFalseAux, waitTrueAux, ?_⟩
  intro dc polls sInit z h
  rw [run_probe] at h
  rcases Option.map_eq_some'.mp h with ⟨r, hr, hf⟩
  obtain ⟨r1, r2, r3⟩ := r
  simp only [Prod.mk.injEq] at hf
  obtain ⟨hb, hz⟩ := hf
  subst hb
  have harr := waitFalseAux dc polls 0 r2 sInit r3 hr
  rw [← hz, harr]

/-- C10 witness: a single poll with all axes stopped makes `run_probe`
return false, reporting exactly the uninitialized array entry 7. -/
theorem wait_for_probe_steps_frame_witness :
    run_probe 0 [pollStop] (fun _ => 7) = some (false, 7) ∧
    (7 : ℤ) = (fun _ => (7 : ℤ)) 2 :=
  ⟨rfl, wait_for_probe_steps_frame.2.2 0 [pollStop] (fun _ => 7) 7 rfl⟩

/-! ## calibrate_delta_radius (ZProbe.cpp lines 350-436) -/

/-- The per-iteration error signal of `calibrate_delta_radius`
(lines 409-410): the center reference height minus the average of the
three tower probes, `d = cmm - ((dx+dy+dz)/3.0F) / Z_STEPS_PER_MM`. -/
def radiusDiff (zspm cmm : ℚ) (p : ℤ × ℤ × ℤ) : ℚ :=
  cmm - ((p.1 + p.2.1 + p.2.2 : ℤ) : ℚ) / 3 / zspm

/-- The empirical delta-radius increment `drinc = 2.5F` (line 390). -/
def drinc : ℚ := 5 / 2

/-- Embedding of the for-loop of `calibrate_delta_radius`
(lines 391-432): each iteration probes the three towers (the next triple
in the list), computes d, breaks when |d| <= target, and otherwise adds
d * drinc to the delta radius before re-homing and the next iteration.
Returns the final delta radius, whether the loop converged, and the
number of iterations run.  The remaining fuel bounds the iteration
count. -/
def calRadiusGo (zspm target cmm : ℚ) :
    List (ℤ × ℤ × ℤ) → ℚ → ℕ → ℚ × Bool × ℕ
  | [], delta_radius, _ => (delta_radius, false, 0)
  | _ :: _, delta_radius, 0 => (delta_radius, false, 0)
  | p :: rest, delta_radius, n + 1 =>
    if |radiusDiff zspm cmm p| ≤ target then (delta_radius, true, 1)
    else
      ((calRadiusGo zspm target cmm rest (delta_radius + radiusDiff zspm cmm p * drinc) n).1,
       (calRadiusGo zspm target cmm rest (delta_radius + radiusDiff zspm cmm p * drinc) n).2.1,
       (calRadiusGo zspm target cmm rest (delta_radius + radiusDiff zspm cmm p * drinc) n).2.2 + 1)

/-- Embedding of `calibrate_delta_radius`: the bed center is probed once
for the reference height cmm, and then the adjustment loop runs at most
20 times (`for (int i = 1; i <= 20; ++i)`). -/
def calibrate_delta_radius (zspm target cmm : ℚ) (probes : List (ℤ × ℤ × ℤ))
    (delta_radius : ℚ) : ℚ × Bool × ℕ :=
  calRadiusGo zspm target cmm probes delta_radius 20
theorem calRadiusGoAux (zspm target cmm : ℚ) (probes : List (ℤ × ℤ × ℤ)) :
    ∀ R : ℚ, ∀ n : ℕ,
      (calRadiusGo zspm target cmm probes R n).2.2 ≤ n ∧
      (calRadiusGo zspm target cmm probes R n).2.2 ≤ probes.length ∧
      ((calRadiusGo zspm target cmm probes R n).2.1 = true →
        1 ≤ (calRadiusGo zspm target cmm probes R n).2.2 ∧
        |(probes.map (radiusDiff zspm cmm)).getD
            ((calRadiusGo zspm target cmm probes R n).2.2 - 1) 0| ≤ target) ∧
      (∀ i : ℕ,
        i + 1 < (calRadiusGo zspm target cmm probes R n).2.2 +
          (if (calRadiusGo zspm target cmm probes R n).2.1 then 0 else 1) →
        target < |(probes.map (radiusDiff zspm cmm)).getD i 0|) ∧
      ((calRadiusGo zspm target cmm probes R n).1 =
        R + drinc * ((probes.take ((calRadiusGo zspm target cmm probes R n).2.2 -
          (if (calRadiusGo zspm target cmm probes R n).2.1 then 1 else 0))).map
            (radiusDiff zspm cmm)).sum) := by
  induction probes with
  | nil =>
    intro R n
    refine ⟨by simp [calRadiusGo], by simp [calRadiusGo], by simp [calRadiusGo],
      by simp [calRadiusGo], by simp [calRadiusGo]⟩
  | cons p rest ih =>
    intro R n
    cases n with
    | zero =>
      refine ⟨by simp [calRadiusGo], by simp [calRadiusGo], by simp [calRadiusGo],
        by simp [calRadiusGo], by simp [calRadiusGo]⟩
    | succ n =>
      by_cases hd : |radiusDiff zspm cmm p| ≤ target
      · rw [calRadiusGo, if_pos hd]
        refine ⟨?_, ?_, ?_, ?_, ?_⟩
        · show 1 ≤ n + 1
          omega
        · show 1 ≤ (p :: rest).length
          simp
        · intro _
          refine ⟨le_refl 1, ?_⟩
          show |((p :: rest).map (radiusDiff zspm cmm)).getD (1 - 1) 0| ≤ target
          simpa using hd
        · intro i hi
          have h1 : i + 1 < 1 + 0 := hi
          omega
        · show R = R + drinc * (((p :: rest).take (1 - 1)).map (radiusDiff zspm cmm)).sum
          simp
      · rw [calRadiusGo, if_neg hd]
        obtain ⟨ihA, ihB, ihC, ihD, ihE⟩ := ih (R + radiusDiff zspm cmm p * drinc) n
        set g := calRadiusGo zspm target cmm rest (R + radiusDiff zspm cmm p * drinc) n with hg
        dsimp only
        refine ⟨?_, ?_, ?_, ?_, ?_⟩
        · omega
        · simp only [List.length_cons]
          omega
        · intro hcv
          obtain ⟨h1, h2⟩ := ihC hcv
          refine ⟨by omega, ?_⟩
          obtain ⟨u0, hu0⟩ : ∃ u0, g.2.2 = u0 + 1 := ⟨g.2.2 - 1, by omega⟩
          rw [hu0]
          simp only [Nat.add_sub_cancel, List.map_cons, List.getD_cons_succ]
          rw [hu0] at h2
          simpa using h2
        · intro i hi
          cases i with
          | zero =>
            show target < |((p :: rest).map (radiusDiff zspm cmm)).getD 0 0|
            simpa using not_le.mp hd
          | succ j =>
            show target < |((p :: rest).map (radiusDiff zspm cmm)).getD (j + 1) 0|
            simp only [List.map_cons, List.getD_cons_succ]
            refine ihD j ?_
            cases hgb : g.2.1 with
            | true =>
              rw [hgb] at hi
              simp only [if_pos] at hi ⊢
              omega
            | false =>
              rw [hgb] at hi
              simp only [Bool.false_eq_true, if_false] at hi ⊢
              omega
        · cases hgb : g.2.1 with
          | true =>
            obtain ⟨h1, -⟩ := ihC hgb
            show g.1 = R + drinc *
              (((p :: rest).take (g.2.2 + 1 - 1)).map (radiusDiff zspm cmm)).sum
            rw [hgb] at ihE
            have e1 : (if true = true then 1 else 0 : ℕ) = 1 := rfl
            rw [e1] at ihE
            have ihE2 : g.1 = R + radiusDiff zspm cmm p * drinc +
                drinc * ((rest.take (g.2.2 - 1)).map (radiusDiff zspm cmm)).sum := ihE
            obtain ⟨u0, hu0⟩ : ∃ u0, g.2.2 = u0 + 1 := ⟨g.2.2 - 1, by omega⟩
            rw [hu0] at ihE2 ⊢
            simp only [Nat.add_sub_cancel] at ihE2 ⊢
            rw [List.take_succ_cons, List.map_cons, List.sum_cons, ihE2]
            ring
          | false =>
            show g.1 = R + drinc *
              (((p :: rest).take (g.2.2 + 1 - 0)).map (radiusDiff zspm cmm)).sum
            rw [hgb] at ihE
            have e0 : (if false = true then 1 else 0 : ℕ) = 0 := rfl
            rw [e0] at ihE
            have ihE2 : g.1 = R + radiusDiff zspm cmm p * drinc +
                drinc * ((rest.take g.2.2).map (radiusDiff zspm cmm)).sum := by
              rw [ihE, Nat.sub_zero]
            simp only [Nat.sub_zero]
            rw [List.take_succ_cons, List.map_cons, List.sum_cons, ihE2]
            ring


/-! ## Theorems for claim C4 -/

/-- C4: `calibrate_delta_radius` probes the bed center once as the fixed
reference height cmm, iterates at most 20 times, and on each iteration
computes diff = cmm minus the average of the three fresh tower probes,
stops exactly when |diff| <= target (every earlier iteration had
|diff| > target, and so does every iteration of a non-converging run),
and otherwise increases the delta radius option by diff * 2.5 before
re-homing for the next cycle, so the final radius is the initial one
plus 2.5 times the sum of the diffs of the adjusting iterations. -/
theorem calibrate_delta_radius_spec :
    (∀ zspm target cmm R : ℚ, ∀ p : ℤ × ℤ × ℤ, ∀ rest : List (ℤ × ℤ × ℤ), ∀ n : ℕ,
      calRadiusGo zspm target cmm (p :: rest) R (n + 1) =
        (if |radiusDiff zspm cmm p| ≤ target then (R, true, 1)
         else
           ((calRadiusGo zspm target cmm rest (R + radiusDiff zspm cmm p * drinc) n).1,
            (calRadiusGo zspm target cmm rest (R + radiusDiff zspm cmm p * drinc) n).2.1,
            (calRadiusGo zspm target cmm rest (R + radiusDiff zspm cmm p * drinc) n).2.2 + 1))) ∧
    (∀ zspm target cmm R : ℚ, ∀ probes : List (ℤ × ℤ × ℤ),
      (calibrate_delta_radius zspm target cmm probes R).2.2 ≤ 20 ∧
      ((calibrate_delta_radius zspm target cmm probes R).2.1 = true →
        |(probes.map (radiusDiff zspm cmm)).getD
            ((calibrate_delta_radius zspm target cmm probes R).2.2 - 1) 0| ≤ target) ∧
      (∀ i : ℕ,
        i + 1 < (calibrate_delta_radius zspm target cmm probes R).2.2 +
          (if (calibrate_delta_radius zspm target cmm probes R).2.1 then 0 else 1) →
        target < |(probes.map (radiusDiff zspm cmm)).getD i 0|) ∧
      ((calibrate_delta_radius zspm target cmm probes R).1 =
        R + drinc * ((probes.take ((calibrate_delta_radius zspm target cmm probes R).2.2 -
          (if (calibrate_delta_radius zspm target cmm probes R).2.1 then 1 else 0))).map
            (radiusDiff zspm cmm)).sum)) := by
  constructor
  · intro zspm target cmm R p rest n
    rw [calRadiusGo]
  · intro zspm target cmm R probes
    obtain ⟨hA, hB, hC, hD, hE⟩ := calRadiusGoAux zspm target cmm probes R 20
    exact ⟨hA, fun h => (hC h).2, hD, hE⟩

/-- C4 witness: with reference height 0, one probe triple (0,0,0) and
target 1, the loop converges on the first iteration, within the 20
iteration cap and with the stopping diff within target. -/
theorem calibrate_delta_radius_spec_witness :
    calibrate_delta_radius 1 1 0 [((0 : ℤ), (0 : ℤ), (0 : ℤ))] 5 = (5, true, 1) ∧
    (calibrate_delta_radius 1 1 0 [((0 : ℤ), (0 : ℤ), (0 : ℤ))] 5).2.2 ≤ 20 ∧
    |([((0 : ℤ), (0 : ℤ), (0 : ℤ))].map (radiusDiff 1 0)).getD
        ((calibrate_delta_radius 1 1 0 [((0 : ℤ), (0 : ℤ), (0 : ℤ))] 5).2.2 - 1) 0| ≤ 1 := by
  have h : calibrate_delta_radius 1 1 0 [((0 : ℤ), (0 : ℤ), (0 : ℤ))] 5 = (5, true, 1) := by
    rw [calibrate_delta_radius, show (20 : ℕ) = 19 + 1 from rfl, calRadiusGo,
      if_pos (by norm_num [radiusDiff])]
  refine ⟨h, (calibrate_delta_radius_spec.2 1 1 0 5 _).1,
    (calibrate_delta_radius_spec.2 1 1 0 5 _).2.1 (by rw [h])⟩

/-! ## assess_consistancy (ZProbe.cpp lines 1409-1584) -/

/-- One 6-point probe cycle of `assess_consistancy`, the six step counts
pushed into test_point in order: the t1, t6, t2, t4, t3 and t5 points. -/
abbrev ProbeCycle : Type := ℤ × ℤ × ℤ × ℤ × ℤ × ℤ

/-- The step count of a cycle at a given offset in the flattened
test_point vector (offsets 0-5 within the cycle). -/
def cyclePoint (c : ProbeCycle) : Fin 6 → ℤ :=
  fun i =>
    match i with
    | ⟨0, _⟩ => c.1
    | ⟨1, _⟩ => c.2.1
    | ⟨2, _⟩ => c.2.2.1
    | ⟨3, _⟩ => c.2.2.2.1
    | ⟨4, _⟩ => c.2.2.2.2.1
    | ⟨5, _⟩ => c.2.2.2.2.2

/-- Embedding of the sample-size selection of `assess_consistancy`
(lines 1419-1423): sample_size starts at 20 and the operator-supplied P
value replaces it only when `temp < 100 && temp > 0`. -/
def consistancySampleSize (p : ℤ) : ℤ := if p < 100 ∧ p > 0 then p else 20

/-- The samples of one probe point: the entries of the flattened
test_point vector at indices congruent to the offset modulo 6
(lines 1565-1575 iterate `for (int i = offset; i < n; i = i + 6)`). -/
def consistancyPointSamples (cycles : List ProbeCycle) (off : Fin 6) : List ℤ :=
  cycles.map (fun c => cyclePoint c off)

/-- Embedding of the per-point `sum[offset]` accumulation
(lines 1536-1556). -/
def consistancySum (cycles : List ProbeCycle) (off : Fin 6) : ℤ :=
  (consistancyPointSamples cycles off).sum

/-- Embedding of `n = test_point.size()`: six entries per cycle. -/
def consistancyN (cycles : List ProbeCycle) : ℤ := 6 * cycles.length

/-- Embedding of `mean[i] = (sum[i] / (n / 6))` (line 1561): C++ int
division (truncation toward zero, `Int.tdiv`) both for n / 6 and for the
mean itself. -/
def consistancyMean (cycles : List ProbeCycle) (off : Fin 6) : ℤ :=
  (consistancySum cycles off).tdiv ((consistancyN cycles).tdiv 6)

/-- Embedding of the per-point compensated variance (lines 1565-1576):
sum2 is the sum of squared deviations from the truncated integer mean,
sum3 the sum of the deviations, and the result is
`(sum2 - (pow(sum3,2)/n))/(n-1)` — with n the TOTAL flattened sample
count 6 * cycles.length, not the per-point count. -/
def consistancyVariance (cycles : List ProbeCycle) (off : Fin 6) : ℚ :=
  let m : ℚ := (consistancyMean cycles off : ℤ)
  let n : ℚ := (consistancyN cycles : ℤ)
  let sum2 : ℚ :=
    ((consistancyPointSamples cycles off).map (fun x : ℤ => ((x : ℚ) - m) ^ 2)).sum
  let sum3 : ℚ :=
    ((consistancyPointSamples cycles off).map (fun x : ℤ => ((x : ℚ) - m))).sum
  (sum2 - sum3 ^ 2 / n) / (n - 1)

/-- The bias-corrected sample variance named by the claim, over the
per-point samples alone: (sum of squares minus square of sum over n)
divided by (n - 1), with n the per-point sample count. -/
def specPointVariance (xs : List ℤ) : ℚ :=
  let n : ℚ := (xs.length : ℕ)
  ((xs.map (fun x : ℤ => (x : ℚ) ^ 2)).sum - ((xs.map (fun x : ℤ => (x : ℚ))).sum) ^ 2 / n) /
    (n - 1)

/-! ## Theorems for claim C9 -/

/-- C9 counterexample: with two cycles whose first-point samples are
{1, 3}, the code computes variance (2 - 0/12)/(12 - 1) = 2/11 because it
divides by the total flattened count n = 12 and n - 1 = 11, while the
bias-corrected sample variance of {1, 3} named by the claim is 2; and
with first-point samples {1, 2} the reported mean is the integer
truncation 1, not the exact mean 3/2.  The [1,99] bound on the sample
count does hold. -/
theorem assess_consistancy_counterexample :
    consistancySampleSize 2 = 2 ∧
    consistancyVariance [((1 : ℤ), 9, 9, 9, 9, 9), ((3 : ℤ), 9, 9, 9, 9, 9)] 0 = 2 / 11 ∧
    specPointVariance
      (consistancyPointSamples [((1 : ℤ), 9, 9, 9, 9, 9), ((3 : ℤ), 9, 9, 9, 9, 9)] 0) = 2 ∧
    ((2 : ℚ) / 11 ≠ 2) ∧
    consistancyMean [((1 : ℤ), 9, 9, 9, 9, 9), ((2 : ℤ), 9, 9, 9, 9, 9)] 0 = 1 ∧
    ((1 : ℚ) ≠ 3 / 2) := by
  have hm : consistancyMean [((1 : ℤ), 9, 9, 9, 9, 9), ((3 : ℤ), 9, 9, 9, 9, 9)] 0 = 2 := by
    decide
  refine ⟨by decide, ?_, ?_, by norm_num, by decide, by norm_num⟩
  · norm_num [consistancyVariance, hm, consistancyPointSamples, consistancyN, cyclePoint]
  · norm_num [specPointVariance, consistancyPointSamples, cyclePoint]

/-- C9 amended: the operator-supplied sample count is used exactly when
it lies in [1,99] (default 20); for each probe point the code reports the
integer-truncated mean of that point of its samples, and the compensated
variance (sum2 - sum3^2/n)/(n - 1) in which the deviations are taken
from the truncated mean and n is the total flattened sample count
6 * cycles, not the per-point count.  In particular a constant sample
set still yields mean equal to the constant and variance exactly 0. -/
theorem assess_consistancy_amended :
    (∀ p : ℤ, consistancySampleSize p = if 0 < p ∧ p < 100 then p else 20) ∧
    (∀ cycles : List ProbeCycle, ∀ off : Fin 6, ∀ c : ℤ,
      cycles ≠ [] →
      (∀ x ∈ consistancyPointSamples cycles off, x = c) →
      consistancyMean cycles off = c ∧ consistancyVariance cycles off = 0) := by
  constructor
  · intro p
    rw [consistancySampleSize]
    exact if_congr and_comm rfl rfl
  · intro cycles off c hne hconst
    have hlen0 : cycles.length ≠ 0 := fun h => hne (List.length_eq_zero.mp h)
    have hlenZ : (cycles.length : ℤ) ≠ 0 := Int.natCast_ne_zero.mpr hlen0
    have hsamples : (consistancyPointSamples cycles off).length = cycles.length := by
      simp [consistancyPointSamples]
    have hsum : consistancySum cycles off = (cycles.length : ℤ) * c := by
      rw [consistancySum, List.sum_eq_card_nsmul _ c hconst, hsamples, nsmul_eq_mul]
    have hmean : consistancyMean cycles off = c := by
      rw [consistancyMean, consistancyN, hsum]
      rw [Int.mul_tdiv_cancel_left _ (by norm_num : (6 : ℤ) ≠ 0)]
      exact Int.mul_tdiv_cancel_left _ hlenZ
    refine ⟨hmean, ?_⟩
    rw [consistancyVariance]
    have hz2 : ((consistancyPointSamples cycles off).map
        (fun x : ℤ => ((x : ℚ) - (consistancyMean cycles off : ℤ)) ^ 2)).sum = 0 := by
      apply List.sum_eq_zero
      intro y hy
      simp only [List.mem_map] at hy
      obtain ⟨x, hx, hfx⟩ := hy
      rw [← hfx, hconst x hx, hmean]
      ring
    have hz3 : ((consistancyPointSamples cycles off).map
        (fun x : ℤ => ((x : ℚ) - (consistancyMean cycles off : ℤ)))).sum = 0 := by
      apply List.sum_eq_zero
      intro y hy
      simp only [List.mem_map] at hy
      obtain ⟨x, hx, hfx⟩ := hy
      rw [← hfx, hconst x hx, hmean]
      ring
    rw [hz2, hz3]
    norm_num

/-- C9 witness: a single cycle with all samples 3 at offset 0 yields the
truncated mean 3 and variance exactly 0. -/
theorem assess_consistancy_amended_witness :
    ([((3 : ℤ), 3, 3, 3, 3, 3)] : List ProbeCycle) ≠ [] ∧
    consistancyMean [((3 : ℤ), 3, 3, 3, 3, 3)] 0 = 3 ∧
    consistancyVariance [((3 : ℤ), 3, 3, 3, 3, 3)] 0 = 0 :=
  ⟨by simp,
   (assess_consistancy_amended.2 [((3 : ℤ), 3, 3, 3, 3, 3)] 0 3 (by simp) (by decide)).1,
   (assess_consistancy_amended.2 [((3 : ℤ), 3, 3, 3, 3, 3)] 0 3 (by simp) (by decide)).2⟩
